import Mathlib

/-!
Shallow embedding of the skemi-mall Express application (routes, middleware
and Sequelize models) and verification of its specification claims.

Tables of the relational store are modelled as Lean lists of rows; the
datastore and ORM are external collaborators (spec section 1), so a
successful query is modelled as filter / sort / slice over the table list,
and a query whose ORDER BY or WHERE names an attribute the owning model does
not define is modelled as the datastore rejecting it, which the routes'
catch blocks turn into a 500 "Server error" response.
-/

/-- JWT claims carried in a token payload (`payload.user` in the routes). -/
structure Claims where
  id : Nat
  username : String
  email : String
  is_admin : Bool
deriving Repr, DecidableEq

/-- A signed JWT: the payload plus the secret it was signed with. -/
structure Token where
  payload : Claims
  secret : String
deriving Repr, DecidableEq

/-- Model of `jwt.sign(payload, secret)`. -/
def jwtSign (c : Claims) (secret : String) : Token := ⟨c, secret⟩

/-- Model of `jwt.verify(token, secret)`: yields the decoded claims exactly
when the token was signed with the same secret. -/
def jwtVerify (t : Token) (secret : String) : Option Claims :=
  if t.secret = secret then some t.payload else none

/-- Row of the `users` table.  `password` holds the hashed secret. -/
structure User where
  id : Nat
  username : String
  email : String
  password : String
  is_admin : Bool
  createdAt : Nat
deriving Repr, DecidableEq

/-- Serialized user as returned by the routes: every attribute except
`password` (`attributes: exclude password` / rest-destructuring). -/
structure PublicUser where
  id : Nat
  username : String
  email : String
  is_admin : Bool
  createdAt : Nat
deriving Repr, DecidableEq

/-- Drop the password from a user row, as the user routes do before
responding. -/
def toPublicUser (u : User) : PublicUser :=
  ⟨u.id, u.username, u.email, u.is_admin, u.createdAt⟩

/-- Modelled from the spec: the User model file is not under src/ (only its
callers are).  Per the spec the model stores a "hashed password secret",
hashing on create/update via a model hook.  The hash is modelled as a tagging
function. -/
def hashPassword (p : String) : String := "bcrypt$" ++ p

/-- Modelled from the spec: `user.comparePassword(candidate)` of the missing
User model verifies a candidate password against the stored hashed secret by
secure comparison. -/
def comparePassword (u : User) (candidate : String) : Bool :=
  hashPassword candidate == u.password

/-- Row of the `categories` table (fields as used by the category routes). -/
structure Category where
  id : Nat
  name : String
  slug : String
  description : Option String
  image_url : Option String
deriving Repr, DecidableEq

/-- Row of the `products` table (Product model). `specifications` is kept as
its serialized JSON text. -/
structure Product where
  id : Nat
  name : String
  slug : String
  model_number : Option String
  description : Option String
  features : Option String
  specifications : Option String
  price : Option String
  category_id : Option Nat
  created_at : Nat
  updated_at : Nat
deriving Repr, DecidableEq

/-- Row of the `contact_messages` table (ContactMessage model): the read
state is the boolean `is_read`, default `false`. -/
structure ContactMessage where
  id : Nat
  name : String
  email : String
  phone : Option String
  message : String
  created_at : Nat
  is_read : Bool
deriving Repr, DecidableEq

/-- Status plus `success`/`message` JSON body, the shape most routes answer
with. -/
structure SimpleResp where
  status : Nat
  success : Bool
  message : String
deriving Repr, DecidableEq

/-- Scan left to right and remove the first occurrence of `pat`. -/
def removeFirstAux (pat : List Char) : List Char → List Char
  | [] => []
  | c :: rest =>
    if pat.isPrefixOf (c :: rest) then (c :: rest).drop pat.length
    else c :: removeFirstAux pat rest

/-- JS `s.replace(pat, "")`: remove the first occurrence of `pat` only. -/
def replaceFirst (s pat : String) : String :=
  ⟨removeFirstAux pat.toList s.toList⟩

/-- Substring test: does `pat` occur inside `s`? -/
def containsSub (s pat : String) : Bool :=
  s.toList.tails.any (fun t => pat.toList.isPrefixOf t)

/-- Case-insensitive `%pat%` match (SQL `iLike`) on a nullable column: a NULL
column never matches. -/
def iLike (field : Option String) (pat : String) : Bool :=
  match field with
  | some s => containsSub s.toLower pat.toLower
  | none => false

/-- JS `body.field || row.field` for a string field: an absent or empty
(falsy) body value keeps the stored one. -/
def jsOr (v : Option String) (d : String) : String :=
  match v with
  | some s => if s.isEmpty then d else s
  | none => d

/-- JS `body.field || row.field` when the stored column is nullable. -/
def jsOrOpt (v : Option String) (d : Option String) : Option String :=
  match v with
  | some s => if s.isEmpty then d else some s
  | none => d

/-- Abstraction of the `isEmail()` validator: one `@` with a dotted domain. -/
def isEmailLike (s : String) : Bool :=
  match s.toList.splitOn '@' with
  | [a, b] => !a.isEmpty && b.contains '.'
  | _ => false

/-- Math.ceil(a / b) for naturals (b positive), as the pagination code
computes `totalPages`; proved below to equal the rational ceiling. -/
def jsCeilDiv (a b : Nat) : Nat := (a + b - 1) / b

/-- Insert into a list sorted by the boolean comparator `le`. -/
def insertSorted {α : Type} (le : α → α → Bool) (a : α) : List α → List α
  | [] => [a]
  | b :: l => if le a b then a :: b :: l else b :: insertSorted le a l

/-- Sort a list by the boolean comparator `le` (models the ORDER BY applied
by the datastore). -/
def sortListBy {α : Type} (le : α → α → Bool) : List α → List α
  | [] => []
  | a :: l => insertSorted le a (sortListBy le l)

theorem length_insertSorted {α : Type} (le : α → α → Bool) (a : α) :
    ∀ l : List α, (insertSorted le a l).length = l.length + 1 := by
  intro l
  induction l with
  | nil => rfl
  | cons b l ih =>
    simp only [insertSorted]
    split
    · simp
    · simp [ih]

theorem length_sortListBy {α : Type} (le : α → α → Bool) :
    ∀ l : List α, (sortListBy le l).length = l.length := by
  intro l
  induction l with
  | nil => rfl
  | cons a l ih => simp [sortListBy, length_insertSorted, ih]

theorem jsCeilDiv_eq_ceil (a b : Nat) (hb : 0 < b) :
    (jsCeilDiv a b : Nat) = ⌈(a : ℚ) / (b : ℚ)⌉₊ := by
  have hb' : (0 : ℚ) < (b : ℚ) := by exact_mod_cast hb
  rcases Nat.eq_zero_or_pos a with ha | ha
  · subst ha
    have h0 : (b - 1) / b = 0 := Nat.div_eq_of_lt (by omega)
    simp [jsCeilDiv, h0]
  · have hmod := Nat.div_add_mod (a + b - 1) b
    have hlt := Nat.mod_lt (a + b - 1) hb
    have hn1 : 1 ≤ (a + b - 1) / b := by
      rw [Nat.le_div_iff_mul_le hb]
      omega
    obtain ⟨m, hm⟩ : ∃ m, (a + b - 1) / b = m + 1 :=
      ⟨(a + b - 1) / b - 1, by omega⟩
    have hexp : b * (m + 1) = b * m + b := by ring
    rw [hm] at hmod
    have hub : a ≤ b * (m + 1) := by omega
    have hlb : b * m < a := by omega
    simp only [jsCeilDiv]
    rw [hm]
    symm
    rw [Nat.ceil_eq_iff (by omega)]
    constructor
    · simp only [Nat.add_sub_cancel]
      rw [lt_div_iff₀ hb']
      calc ((m : Nat) : ℚ) * (b : ℚ) = ((b * m : Nat) : ℚ) := by push_cast; ring
        _ < (a : ℚ) := by exact_mod_cast hlb
    · rw [div_le_iff₀ hb']
      calc (a : ℚ) ≤ ((b * (m + 1) : Nat) : ℚ) := by exact_mod_cast hub
        _ = ((m + 1 : Nat) : ℚ) * (b : ℚ) := by push_cast; ring

/-! ### Credential Verifier and Authorization Gate (src/src/middleware/auth.js) -/

/-- Result of a middleware: either a terminal JSON rejection or the request
proceeds, carrying the decoded claims attached to the request context. -/
inductive AuthResult where
  | reject (status : Nat) (message : String)
  | proceed (user : Claims)
deriving Repr, DecidableEq

/-- The `auth` middleware.  `verifyTok` stands for `jwt.verify(-, JWT_SECRET)`
with the process-wide secret: it yields the decoded claims exactly when the
signature and expiry check out.  The token is extracted from the
Authorization header by `header?.replace("Bearer ", "")`; an absent header or
an empty extracted token (both falsy in JS) are rejected as missing. -/
def authMiddleware (verifyTok : String → Option Claims)
    (authHeader : Option String) : AuthResult :=
  match authHeader with
  | none => .reject 401 "No token, authorization denied"
  | some h =>
    let token := replaceFirst h "Bearer "
    if token = "" then .reject 401 "No token, authorization denied"
    else
      match verifyTok token with
      | none => .reject 401 "Token is not valid"
      | some c => .proceed c

/-- The `admin` middleware: requires `req.user.is_admin`. -/
def adminMiddleware (user : Claims) : AuthResult :=
  if !user.is_admin then
    .reject 403 "Access denied. Admin privileges required."
  else .proceed user

/-- C6: the Credential Verifier rejects a request carrying no bearer token
with 401 "No token, authorization denied"; rejects a present token that does
not verify against the process-wide secret with 401 "Token is not valid";
and on successful verification attaches the decoded claims to the request
context and proceeds, with no other effect. -/
theorem auth_verifier_contract (verifyTok : String → Option Claims) :
    (authMiddleware verifyTok none = .reject 401 "No token, authorization denied") ∧
    (∀ h : String, replaceFirst h "Bearer " = "" →
      authMiddleware verifyTok (some h) =
        .reject 401 "No token, authorization denied") ∧
    (∀ h : String, replaceFirst h "Bearer " ≠ "" →
      verifyTok (replaceFirst h "Bearer ") = none →
      authMiddleware verifyTok (some h) = .reject 401 "Token is not valid") ∧
    (∀ (h : String) (c : Claims), replaceFirst h "Bearer " ≠ "" →
      verifyTok (replaceFirst h "Bearer ") = some c →
      authMiddleware verifyTok (some h) = .proceed c) := by
  refine ⟨rfl, ?_, ?_, ?_⟩
  · intro h hempty
    simp [authMiddleware, hempty]
  · intro h hne hv
    simp [authMiddleware, hne, hv]
  · intro h c hne hv
    simp [authMiddleware, hne, hv]

/-- Witness for C6: a concrete verifier, a valid header, a tampered header
and a missing header exercise all three contract branches. -/
theorem auth_verifier_contract_witness :
    (authMiddleware
        (fun t => if t = "good" then some ⟨1, "admin", "a@b.c", true⟩ else none)
        (some "Bearer good") = .proceed ⟨1, "admin", "a@b.c", true⟩) ∧
    (authMiddleware
        (fun t => if t = "good" then some ⟨1, "admin", "a@b.c", true⟩ else none)
        (some "Bearer bad") = .reject 401 "Token is not valid") ∧
    (authMiddleware
        (fun t => if t = "good" then some ⟨1, "admin", "a@b.c", true⟩ else none)
        (some "Bearer ") = .reject 401 "No token, authorization denied") := by
  refine ⟨?_, ?_, ?_⟩
  · exact (auth_verifier_contract _).2.2.2 "Bearer good" ⟨1, "admin", "a@b.c", true⟩
      (by decide) (by decide)
  · exact (auth_verifier_contract _).2.2.1 "Bearer bad" (by decide) (by decide)
  · exact (auth_verifier_contract _).2.1 "Bearer " (by decide)

/-! ### User deletion (src/src/routes/userRoutes.js, DELETE /api/users/:id) -/

/-- DELETE /api/users/:id handler body (after the `auth, admin` gates):
404 if the id is unknown; if the target is an admin and the admin count is
at most one, 400 "Cannot delete the last admin user"; otherwise the row is
destroyed. -/
def deleteUserHandler (users : List User) (id : Nat) :
    SimpleResp × List User :=
  match users.find? (fun u => u.id == id) with
  | none => (⟨404, false, "User not found"⟩, users)
  | some user =>
    if user.is_admin then
      if (users.filter (fun u => u.is_admin)).length ≤ 1 then
        (⟨400, false, "Cannot delete the last admin user"⟩, users)
      else
        (⟨200, true, "User deleted successfully"⟩,
         users.filter (fun u => u.id != id))
    else
      (⟨200, true, "User deleted successfully"⟩,
       users.filter (fun u => u.id != id))

/-- Two rows of a table with pairwise distinct primary keys and the same key
are the same row. -/
theorem row_eq_of_id_eq {users : List User}
    (hnodup : (users.map User.id).Nodup) {u v : User}
    (hu : u ∈ users) (hv : v ∈ users) (hid : u.id = v.id) : u = v :=
  List.inj_on_of_nodup_map hnodup hu hv hid

/-- Among at least two admin rows with pairwise distinct primary keys, some
admin has a key different from any fixed `id`. -/
theorem exists_other_admin {users : List User} {id : Nat}
    (hnodup : (users.map User.id).Nodup)
    (h2 : 2 ≤ (users.filter (fun v => v.is_admin)).length) :
    ∃ a ∈ users, a.is_admin = true ∧ a.id ≠ id := by
  by_contra hcon
  push_neg at hcon
  have hsub : (users.filter (fun v => v.is_admin)).Sublist users :=
    List.filter_sublist users
  have hnodupA : ((users.filter (fun v => v.is_admin)).map User.id).Nodup :=
    hnodup.sublist (hsub.map User.id)
  have hrep : ∀ b ∈ (users.filter (fun v => v.is_admin)).map User.id, b = id := by
    intro b hb
    simp only [List.mem_map] at hb
    obtain ⟨x, hx, rfl⟩ := hb
    exact hcon x (hsub.subset hx) (List.of_mem_filter hx)
  have hrepl := List.eq_replicate_of_mem hrep
  rw [hrepl, List.nodup_replicate] at hnodupA
  simp only [List.length_map] at hnodupA
  omega

/-- C1: deleting a user when the target is the sole admin is rejected with
400 "Cannot delete the last admin user" and removes nothing; deleting an
admin while another admin exists, or a non-admin, succeeds and removes the
row; consequently if at least one admin user exists before the operation,
at least one admin user exists afterwards. -/
theorem delete_user_preserves_admin (users : List User) (id : Nat)
    (hnodup : (users.map User.id).Nodup) :
    (∀ u, users.find? (fun v => v.id == id) = some u →
      (u.is_admin = true →
        ((users.filter (fun v => v.is_admin)).length = 1 →
          deleteUserHandler users id =
            (⟨400, false, "Cannot delete the last admin user"⟩, users)) ∧
        (2 ≤ (users.filter (fun v => v.is_admin)).length →
          deleteUserHandler users id =
            (⟨200, true, "User deleted successfully"⟩,
             users.filter (fun v => v.id != id)))) ∧
      (u.is_admin = false →
        deleteUserHandler users id =
          (⟨200, true, "User deleted successfully"⟩,
           users.filter (fun v => v.id != id)))) ∧
    ((∃ a ∈ users, a.is_admin = true) →
      ∃ a ∈ (deleteUserHandler users id).2, a.is_admin = true) := by
  constructor
  · intro u hfind
    refine ⟨fun hadm => ⟨fun hone => ?_, fun htwo => ?_⟩, fun hnadm => ?_⟩
    · simp [deleteUserHandler, hfind, hadm, hone]
    · simp [deleteUserHandler, hfind, hadm]
      omega
    · simp [deleteUserHandler, hfind, hnadm]
  · rintro ⟨a, ha, hadm⟩
    unfold deleteUserHandler
    cases hfind : users.find? (fun v => v.id == id) with
    | none => exact ⟨a, ha, hadm⟩
    | some u =>
      have humem : u ∈ users := List.mem_of_find?_eq_some hfind
      have huid : u.id = id := by
        have := List.find?_some hfind
        simpa using this
      dsimp only
      by_cases hua : u.is_admin
      · by_cases hcnt : (users.filter (fun u => u.is_admin)).length ≤ 1
        · rw [if_pos hua, if_pos hcnt]
          exact ⟨a, ha, hadm⟩
        · rw [if_pos hua, if_neg hcnt]
          obtain ⟨b, hb, hbadm, hbid⟩ := exists_other_admin hnodup (by omega)
          refine ⟨b, List.mem_filter.mpr ⟨hb, ?_⟩, hbadm⟩
          simpa using hbid
      · rw [if_neg hua]
        have haid : a.id ≠ id := by
          intro heq
          have : a = u := row_eq_of_id_eq hnodup ha humem (by rw [heq, huid])
          rw [this] at hadm
          exact hua (by simp [hadm])
        refine ⟨a, List.mem_filter.mpr ⟨ha, ?_⟩, hadm⟩
        simpa using haid

/-- Witness for C1: concrete two-admin and one-admin tables exercise both
the conflict branch and the successful deletion, and the invariant. -/
theorem delete_user_preserves_admin_witness :
    (deleteUserHandler
        [⟨1, "admin", "a@x.c", "h1", true, 0⟩] 1 =
      (⟨400, false, "Cannot delete the last admin user"⟩,
       [⟨1, "admin", "a@x.c", "h1", true, 0⟩])) ∧
    (deleteUserHandler
        [⟨1, "admin", "a@x.c", "h1", true, 0⟩,
         ⟨2, "root", "r@x.c", "h2", true, 1⟩] 2 =
      (⟨200, true, "User deleted successfully"⟩,
       [⟨1, "admin", "a@x.c", "h1", true, 0⟩])) := by
  constructor
  · exact (((delete_user_preserves_admin
      [⟨1, "admin", "a@x.c", "h1", true, 0⟩] 1 (by decide)).1
      ⟨1, "admin", "a@x.c", "h1", true, 0⟩ (by decide)).1 (by decide)).1 (by decide)
  · exact (((delete_user_preserves_admin
      [⟨1, "admin", "a@x.c", "h1", true, 0⟩, ⟨2, "root", "r@x.c", "h2", true, 1⟩] 2
      (by decide)).1
      ⟨2, "root", "r@x.c", "h2", true, 1⟩ (by decide)).1 (by decide)).2 (by decide)

/-! ### Product list (src/unnamed/part_000, GET /api/products) and message
list (src/src/routes/contactRoutes.js, GET /api/contact/messages) -/

/-- Query parameters of the product list route.  `page` and `limit` are the
parsed integers (defaults 1 and 10 applied upstream). -/
structure ProductQuery where
  category : Option String
  search : Option String
  sort : Option String
  page : Nat
  limit : Nat
deriving Repr, DecidableEq

/-- The category include with `where slug` turns into an inner join: a
product matches when its category reference resolves to a category with the
given slug. -/
def matchesCategory (cats : List Category) (slug : String) (p : Product) : Bool :=
  cats.any (fun c => p.category_id == some c.id && c.slug == slug)

/-- The search filter: case-insensitive substring match over name, model
number and description, with OR semantics. -/
def matchesSearch (s : String) (p : Product) : Bool :=
  containsSub p.name.toLower s.toLower || iLike p.model_number s ||
    iLike p.description s

/-- Rows matching the active filters (`if (category)` / `if (search)` are JS
truthiness tests, so an empty parameter applies no filter). -/
def filteredProducts (cats : List Category) (prods : List Product)
    (q : ProductQuery) : List Product :=
  let l1 := match q.category with
    | some slug =>
      if slug.isEmpty then prods else prods.filter (matchesCategory cats slug)
    | none => prods
  match q.search with
  | some s => if s.isEmpty then l1 else l1.filter (matchesSearch s)
  | none => l1

/-- Attributes defined by the Product model (src/unnamed/part_004,
`timestamps: false`): the creation column is `created_at`; no `createdAt`
attribute exists. -/
def productAttrs : List String :=
  ["id", "name", "slug", "model_number", "description", "features",
   "specifications", "price", "category_id", "created_at", "updated_at"]

/-- Attributes defined by the ContactMessage model (src/unnamed/part_005,
`timestamps: false`): the read flag is the boolean `is_read`; neither a
`status` nor a `createdAt` attribute exists. -/
def contactMessageAttrs : List String :=
  ["id", "name", "email", "phone", "message", "created_at", "is_read"]

/-- ORDER BY key the product route resolves from the `sort` parameter: the
attribute name and whether the order is ascending.  Any unrecognized value
keeps the default `[['createdAt', 'DESC']]`. -/
def productOrderKey (sort : Option String) : String × Bool :=
  match sort with
  | some "name-asc" => ("name", true)
  | some "name-desc" => ("name", false)
  | some "oldest" => ("createdAt", true)
  | _ => ("createdAt", false)

/-- Comparator for an ORDER BY key over product rows. -/
def productLE (key : String × Bool) (p q : Product) : Bool :=
  if key.1 = "name" then
    if key.2 then decide (p.name ≤ q.name) else decide (q.name ≤ p.name)
  else
    if key.2 then decide (p.created_at ≤ q.created_at)
    else decide (q.created_at ≤ p.created_at)

/-- Pagination metadata of a list response. -/
structure PageMeta where
  total : Nat
  page : Nat
  limit : Nat
  totalPages : Nat
deriving Repr, DecidableEq

/-- Result of the product list route: the generated query errors — and the
route's catch answers 500 "Server error" — whenever it references a column
the model does not define; otherwise 200 with rows and pagination. -/
inductive ProductListResult where
  | serverError
  | ok (products : List Product) (pagination : PageMeta)
deriving Repr, DecidableEq

/-- GET /api/products: resolve the ORDER BY key (default
`[['createdAt', 'DESC']]`).  A key naming no attribute of the Product model
— `createdAt` under the default and `oldest` sorts, since the model defines
`created_at` with `timestamps: false` — makes the datastore reject the
query, so the route answers 500.  With a defined key, `findAndCountAll`
counts all rows matching the filters (the non-required image include is not
part of the count query) and returns the `offset = (page-1)*limit` slice of
at most `limit` rows, with `totalPages = Math.ceil(count / limit)`. -/
def productListHandler (cats : List Category) (prods : List Product)
    (q : ProductQuery) : ProductListResult :=
  let key := productOrderKey q.sort
  if key.1 ∈ productAttrs then
    let offset := (q.page - 1) * q.limit
    let filtered := filteredProducts cats prods q
    let rows := ((sortListBy (productLE key) filtered).drop offset).take q.limit
    .ok rows ⟨filtered.length, q.page, q.limit,
      jsCeilDiv filtered.length q.limit⟩
  else .serverError

/-- Query parameters of the contact-message list route. -/
structure MessagesQuery where
  status : Option String
  page : Nat
  limit : Nat
deriving Repr, DecidableEq

/-- Result of the message list route. -/
inductive MessagesListResult where
  | serverError
  | ok (messages : List ContactMessage) (pagination : PageMeta)
deriving Repr, DecidableEq

/-- GET /api/contact/messages: every execution orders by attribute
`createdAt` (and filters on attribute `status` when one is supplied), but
the ContactMessage model defines `created_at` with `timestamps: false` and
no status column, so the generated query always references a nonexistent
column, the datastore rejects it and the catch answers 500 "Server
error". -/
def messagesListHandler (msgs : List ContactMessage) (q : MessagesQuery) :
    MessagesListResult :=
  if "createdAt" ∈ contactMessageAttrs then
    .ok (((sortListBy (fun a b => decide (b.created_at ≤ a.created_at))
        msgs).drop ((q.page - 1) * q.limit)).take q.limit)
      ⟨msgs.length, q.page, q.limit, jsCeilDiv msgs.length q.limit⟩
  else .serverError

/-- C2 (failing evaluation): the default-sorted and `oldest`-sorted product
lists and every contact-message list answer 500 "Server error" with no
pagination metadata at all, because the ORDER BY attribute `createdAt`
exists in neither model (and the message route's status filter names a
nonexistent `status` column besides); the claimed
`totalPages = ceil(total / limit)` body is never produced on these
requests. -/
theorem list_routes_order_column_500 (cats : List Category)
    (prods : List Product) (msgs : List ContactMessage)
    (cat search : Option String) (page limit : Nat) (mq : MessagesQuery) :
    productListHandler cats prods ⟨cat, search, none, page, limit⟩ =
      .serverError ∧
    productListHandler cats prods ⟨cat, search, some "oldest", page, limit⟩ =
      .serverError ∧
    messagesListHandler msgs mq = .serverError :=
  ⟨rfl, rfl, rfl⟩

/-- C3 (failing evaluation): one stored product, limit 10, page 5 — the page
exceeds the one intended total page (`jsCeilDiv 1 10 = 1 < 5`), yet under
the route's default sort the response is 500 "Server error", not the claimed
empty-list success with valid metadata. -/
theorem product_list_page_beyond_500 :
    productListHandler []
      [⟨1, "Watch", "watch", none, none, none, none, none, none, 3, 3⟩]
      ⟨none, none, none, 5, 10⟩ = .serverError ∧
    jsCeilDiv 1 10 < 5 :=
  ⟨rfl, by decide⟩

/-! ### Category deletion (src/unnamed/part_001, DELETE /api/categories/:id) -/

/-- DELETE /api/categories/:id: 404 if unknown; blocked with 400 and a
message naming the exact referencing-product count when products still
reference the category; otherwise the stored image file is unlinked when it
exists (a missing file is skipped, not an error) and the row is destroyed.
The stored files are modelled by their public path strings. -/
def deleteCategoryHandler (cats : List Category) (prods : List Product)
    (files : List String) (id : Nat) :
    SimpleResp × List Category × List String :=
  match cats.find? (fun c => c.id == id) with
  | none => (⟨404, false, "Category not found"⟩, cats, files)
  | some category =>
    let productCount :=
      (prods.filter (fun p => p.category_id == some category.id)).length
    if 0 < productCount then
      (⟨400, false,
        "Cannot delete category with " ++ toString productCount ++
          " products. Please move or delete the products first."⟩,
       cats, files)
    else
      let files1 := match category.image_url with
        | some url => if url ∈ files then files.erase url else files
        | none => files
      (⟨200, true, "Category deleted successfully"⟩,
       cats.filter (fun c => c.id != id), files1)

/-- C4: deleting an existing category with referencing products fails with
400 naming the exact count and changes nothing; with zero referencing
products it succeeds, removes the category row and removes its stored image
file, a missing file being no error. -/
theorem delete_category_guard (cats : List Category) (prods : List Product)
    (files : List String) (id : Nat) (hf : files.Nodup) :
    ∀ category, cats.find? (fun c => c.id == id) = some category →
      (0 < (prods.filter (fun p => p.category_id == some category.id)).length →
        deleteCategoryHandler cats prods files id =
          (⟨400, false,
            "Cannot delete category with " ++
              toString
                (prods.filter
                  (fun p => p.category_id == some category.id)).length ++
              " products. Please move or delete the products first."⟩,
           cats, files)) ∧
      ((prods.filter (fun p => p.category_id == some category.id)).length = 0 →
        (deleteCategoryHandler cats prods files id).1 =
          ⟨200, true, "Category deleted successfully"⟩ ∧
        (deleteCategoryHandler cats prods files id).2.1 =
          cats.filter (fun c => c.id != id) ∧
        ∀ url, category.image_url = some url →
          url ∉ (deleteCategoryHandler cats prods files id).2.2) := by
  intro category hfind
  constructor
  · intro hpos
    simp only [deleteCategoryHandler, hfind]
    rw [if_pos hpos]
  · intro hzero
    simp only [deleteCategoryHandler, hfind]
    rw [if_neg (by omega)]
    refine ⟨rfl, rfl, ?_⟩
    intro url hurl
    simp only [hurl]
    by_cases hmem : url ∈ files
    · rw [if_pos hmem]
      exact hf.not_mem_erase
    · rw [if_neg hmem]
      exact hmem

/-- Witness for C4: a category with one referencing product is blocked with
the count named; an unreferenced category is deleted and its image file
disappears from storage. -/
theorem delete_category_guard_witness :
    (deleteCategoryHandler
        [⟨1, "Smart Watch", "smart-watch", none, some "/uploads/categories/a.png"⟩]
        [⟨7, "W", "w", none, none, none, none, none, some 1, 0, 0⟩]
        ["/uploads/categories/a.png"] 1 =
      (⟨400, false,
        "Cannot delete category with 1 products. Please move or delete the products first."⟩,
       [⟨1, "Smart Watch", "smart-watch", none, some "/uploads/categories/a.png"⟩],
       ["/uploads/categories/a.png"])) ∧
    ((deleteCategoryHandler
        [⟨1, "Smart Watch", "smart-watch", none, some "/uploads/categories/a.png"⟩]
        [] ["/uploads/categories/a.png"] 1).1 =
      ⟨200, true, "Category deleted successfully"⟩) ∧
    "/uploads/categories/a.png" ∉
      (deleteCategoryHandler
        [⟨1, "Smart Watch", "smart-watch", none, some "/uploads/categories/a.png"⟩]
        [] ["/uploads/categories/a.png"] 1).2.2 := by
  refine ⟨?_, ?_, ?_⟩
  · have h := (delete_category_guard
      [⟨1, "Smart Watch", "smart-watch", none, some "/uploads/categories/a.png"⟩]
      [⟨7, "W", "w", none, none, none, none, none, some 1, 0, 0⟩]
      ["/uploads/categories/a.png"] 1 (by decide)
      ⟨1, "Smart Watch", "smart-watch", none, some "/uploads/categories/a.png"⟩
      (by decide)).1 (by decide)
    exact h
  · exact ((delete_category_guard
      [⟨1, "Smart Watch", "smart-watch", none, some "/uploads/categories/a.png"⟩]
      [] ["/uploads/categories/a.png"] 1 (by decide)
      ⟨1, "Smart Watch", "smart-watch", none, some "/uploads/categories/a.png"⟩
      (by decide)).2 (by decide)).1
  · exact (((delete_category_guard
      [⟨1, "Smart Watch", "smart-watch", none, some "/uploads/categories/a.png"⟩]
      [] ["/uploads/categories/a.png"] 1 (by decide)
      ⟨1, "Smart Watch", "smart-watch", none, some "/uploads/categories/a.png"⟩
      (by decide)).2 (by decide)).2.2 "/uploads/categories/a.png" rfl)

/-! ### Login (src/unnamed/part_002, POST /api/auth/login) -/

/-- Response of the login route. -/
inductive LoginResp where
  | badRequest (errors : List String)
  | unauthorized (message : String)
  | ok (token : Token) (user : Claims)
deriving Repr, DecidableEq

/-- POST /api/auth/login: validate presence of both fields; look the user up
by username; verify the password; on success sign a token whose payload is
the stored user's {id, username, email, is_admin}; on either failure answer
401 "Invalid credentials". -/
def loginHandler (users : List User) (secret username password : String) :
    LoginResp :=
  if username.isEmpty || password.isEmpty then
    .badRequest
      ((if username.isEmpty then ["Username is required"] else []) ++
       (if password.isEmpty then ["Password is required"] else []))
  else
    match users.find? (fun u => u.username == username) with
    | none => .unauthorized "Invalid credentials"
    | some user =>
      if comparePassword user password then
        .ok (jwtSign ⟨user.id, user.username, user.email, user.is_admin⟩ secret)
          ⟨user.id, user.username, user.email, user.is_admin⟩
      else .unauthorized "Invalid credentials"

/-- C5: a login whose username resolves to a stored user and whose password
verifies yields a token that decodes to exactly the stored {id, username,
email, is_admin}; an unknown username and a failing password produce the
identical 401 "Invalid credentials" response, so the response does not
reveal whether the username exists. -/
theorem login_contract (users : List User) (secret username password : String)
    (hu : ¬username.isEmpty) (hp : ¬password.isEmpty) :
    (∀ user, users.find? (fun u => u.username == username) = some user →
      (comparePassword user password = true →
        loginHandler users secret username password =
          .ok (jwtSign ⟨user.id, user.username, user.email, user.is_admin⟩ secret)
            ⟨user.id, user.username, user.email, user.is_admin⟩ ∧
        jwtVerify
          (jwtSign ⟨user.id, user.username, user.email, user.is_admin⟩ secret)
          secret = some ⟨user.id, user.username, user.email, user.is_admin⟩) ∧
      (comparePassword user password = false →
        loginHandler users secret username password =
          .unauthorized "Invalid credentials")) ∧
    (users.find? (fun u => u.username == username) = none →
      loginHandler users secret username password =
        .unauthorized "Invalid credentials") ∧
    (∀ (users2 : List User) (username2 password2 : String),
      ¬username2.isEmpty → ¬password2.isEmpty →
      users2.find? (fun u => u.username == username2) = none →
      ∀ user, users.find? (fun u => u.username == username) = some user →
      comparePassword user password = false →
      loginHandler users secret username password =
        loginHandler users2 secret username2 password2) := by
  simp only [Bool.not_eq_true] at hu hp
  refine ⟨?_, ?_, ?_⟩
  · intro user hfind
    constructor
    · intro hcmp
      constructor
      · simp [loginHandler, hu, hp, hfind, hcmp]
      · simp [jwtVerify, jwtSign]
    · intro hcmp
      simp [loginHandler, hu, hp, hfind, hcmp]
  · intro hfind
    simp [loginHandler, hu, hp, hfind]
  · intro users2 username2 password2 hu2 hp2 hnone2 user hfind hcmp
    simp only [Bool.not_eq_true] at hu2 hp2
    simp [loginHandler, hu, hp, hu2, hp2, hfind, hnone2, hcmp]

/-- Witness for C5: a correct login yields the stored user's claims; a wrong
password and an unknown username yield the identical failure response. -/
theorem login_contract_witness :
    (loginHandler [⟨1, "admin", "admin@example.com", hashPassword "admin123", true, 0⟩]
        "s3cret" "admin" "admin123" =
      .ok (jwtSign ⟨1, "admin", "admin@example.com", true⟩ "s3cret")
        ⟨1, "admin", "admin@example.com", true⟩) ∧
    (jwtVerify (jwtSign ⟨1, "admin", "admin@example.com", true⟩ "s3cret") "s3cret" =
      some ⟨1, "admin", "admin@example.com", true⟩) ∧
    (loginHandler [⟨1, "admin", "admin@example.com", hashPassword "admin123", true, 0⟩]
        "s3cret" "admin" "wrongpw" =
      loginHandler [⟨1, "admin", "admin@example.com", hashPassword "admin123", true, 0⟩]
        "s3cret" "ghost" "whatever") := by
  refine ⟨?_, ?_, ?_⟩
  · exact ((((login_contract
      [⟨1, "admin", "admin@example.com", hashPassword "admin123", true, 0⟩]
      "s3cret" "admin" "admin123" (by decide) (by decide)).1
      ⟨1, "admin", "admin@example.com", hashPassword "admin123", true, 0⟩
      (by decide)).1) (by decide)).1
  · exact ((((login_contract
      [⟨1, "admin", "admin@example.com", hashPassword "admin123", true, 0⟩]
      "s3cret" "admin" "admin123" (by decide) (by decide)).1
      ⟨1, "admin", "admin@example.com", hashPassword "admin123", true, 0⟩
      (by decide)).1) (by decide)).2
  · exact (login_contract
      [⟨1, "admin", "admin@example.com", hashPassword "admin123", true, 0⟩]
      "s3cret" "admin" "wrongpw" (by decide) (by decide)).2.2
      [⟨1, "admin", "admin@example.com", hashPassword "admin123", true, 0⟩]
      "ghost" "whatever" (by decide) (by decide) (by decide)
      ⟨1, "admin", "admin@example.com", hashPassword "admin123", true, 0⟩
      (by decide) (by decide)

/-! ### GET /api/auth/me (src/unnamed/part_002) -/

/-- Response of the `/me` route. -/
structure MeResp where
  status : Nat
  success : Bool
  message : Option String
  user : Option PublicUser
deriving Repr, DecidableEq

/-- The `/me` handler body: it reads `req.user.id`.  When no middleware has
attached `req.user`, that property access throws and the handler's catch
answers 500 "Server error"; with claims attached it looks the user up and
answers without the password field. -/
def meHandler (users : List User) (reqUser : Option Claims) : MeResp :=
  match reqUser with
  | none => ⟨500, false, some "Server error", none⟩
  | some c =>
    match users.find? (fun u => u.id == c.id) with
    | none => ⟨404, false, some "User not found", none⟩
    | some u => ⟨200, true, none, some (toPublicUser u)⟩

/-- GET /api/auth/me as actually wired: `router.get('/me', handler)` mounts
no auth middleware (and authRoutes never imports one), so `req.user` is
never set, whatever the Authorization header carries. -/
def meRoute (users : List User) (authHeader : Option String) : MeResp :=
  meHandler users none

/-- C7 (failing evaluation): every request to GET /api/auth/me — with or
without a bearer token — answers 500 "Server error", never the claimed 401
or the authenticated {success, user} body, because the route lacks the auth
middleware its own doc comment promises. -/
theorem me_route_always_500 (users : List User) (authHeader : Option String) :
    meRoute users authHeader = ⟨500, false, some "Server error", none⟩ :=
  rfl

/-! ### Partial updates (src/src/routes/userRoutes.js PUT /api/users/:id and
src/unnamed/part_000 PUT /api/products/:id) -/

/-- Fields a user-update request may carry (`none` = omitted). -/
structure UserUpdateBody where
  username : Option String
  email : Option String
  password : Option String
  is_admin : Option Bool
deriving Repr, DecidableEq

/-- The `updateData` object of the user route: `body.username || user.username`,
`body.email || user.email`, `is_admin` kept unless supplied (an explicit
`!== undefined` test), and `password` included — and then hashed by the model
hook — only when the body carries a truthy value. -/
def updateUserFields (u : User) (b : UserUpdateBody) : User :=
  { u with
    username := jsOr b.username u.username,
    email := jsOr b.email u.email,
    is_admin := b.is_admin.getD u.is_admin,
    password :=
      match b.password with
      | some pw => if pw.isEmpty then u.password else hashPassword pw
      | none => u.password }

/-- Fields a product-update request may carry (`none` = omitted). -/
structure ProductUpdateBody where
  name : Option String
  model_number : Option String
  category_id : Option Nat
  description : Option String
  features : Option String
  specifications : Option String
  price : Option String
deriving Repr, DecidableEq

/-- The `product.update` argument of the product route — every field falls
back to the stored value via `||` (or the ternary on `specifications`); a
present `category_id`, any nonempty request string, replaces the reference —
composed with the model's `beforeUpdate` hook (src/unnamed/part_004), which
sets `updated_at` to the update time on every update. -/
def updateProductFields (p : Product) (b : ProductUpdateBody) (now : Nat) :
    Product :=
  { p with
    name := jsOr b.name p.name,
    model_number := jsOrOpt b.model_number p.model_number,
    category_id := match b.category_id with
      | some c => some c
      | none => p.category_id,
    description := jsOrOpt b.description p.description,
    features := jsOrOpt b.features p.features,
    specifications := jsOrOpt b.specifications p.specifications,
    price := jsOrOpt b.price p.price,
    updated_at := now }

/-- C8 counterexample: a product update whose body omits every field still
changes a stored field of the entity — the model's `beforeUpdate` hook
rewrites `updated_at` (here from 9 to 12) — so "all other stored fields of
the entity are unchanged" fails as stated. -/
theorem update_changes_updated_at :
    (updateProductFields
        ⟨1, "W", "w", none, none, none, none, none, none, 3, 9⟩
        ⟨none, none, none, none, none, none, none⟩ 12).updated_at ≠
      (⟨1, "W", "w", none, none, none, none, none, none, 3, 9⟩ :
        Product).updated_at := by
  decide

/-- C8 (amended): in both update operations every field omitted from the
body retains its prior stored value, the stored password changes — to the
fresh hash — only when a password is explicitly supplied, and the remaining
stored fields (keys, slug, creation time) are untouched, except the
product's `updated_at` timestamp, which the model's `beforeUpdate` hook sets
to the update time on every update. -/
theorem update_preserves_omitted (u : User) (bu : UserUpdateBody)
    (p : Product) (bp : ProductUpdateBody) (now : Nat) :
    (bu.username = none → (updateUserFields u bu).username = u.username) ∧
    (bu.email = none → (updateUserFields u bu).email = u.email) ∧
    (bu.is_admin = none → (updateUserFields u bu).is_admin = u.is_admin) ∧
    (bu.password = none → (updateUserFields u bu).password = u.password) ∧
    (∀ pw, bu.password = some pw → ¬pw.isEmpty →
      (updateUserFields u bu).password = hashPassword pw) ∧
    ((updateUserFields u bu).id = u.id ∧
      (updateUserFields u bu).createdAt = u.createdAt) ∧
    (bp.name = none → (updateProductFields p bp now).name = p.name) ∧
    (bp.model_number = none →
      (updateProductFields p bp now).model_number = p.model_number) ∧
    (bp.category_id = none →
      (updateProductFields p bp now).category_id = p.category_id) ∧
    (bp.description = none →
      (updateProductFields p bp now).description = p.description) ∧
    (bp.features = none →
      (updateProductFields p bp now).features = p.features) ∧
    (bp.specifications = none →
      (updateProductFields p bp now).specifications = p.specifications) ∧
    (bp.price = none → (updateProductFields p bp now).price = p.price) ∧
    ((updateProductFields p bp now).id = p.id ∧
      (updateProductFields p bp now).slug = p.slug ∧
      (updateProductFields p bp now).created_at = p.created_at) ∧
    ((updateProductFields p bp now).updated_at = now) := by
  refine ⟨fun h => ?_, fun h => ?_, fun h => ?_, fun h => ?_,
    fun pw h hne => ?_, ⟨rfl, rfl⟩,
    fun h => ?_, fun h => ?_, fun h => ?_, fun h => ?_, fun h => ?_,
    fun h => ?_, fun h => ?_, ⟨rfl, rfl, rfl⟩, rfl⟩ <;>
    simp_all [updateUserFields, updateProductFields, jsOr, jsOrOpt]

/-- Witness for C8: an all-omitted body changes nothing it should not (while
the hook stamps `updated_at`), and a supplied password is stored rehashed. -/
theorem update_preserves_omitted_witness :
    ((updateUserFields ⟨1, "admin", "a@x.c", hashPassword "old", true, 0⟩
        ⟨none, none, none, none⟩).username = "admin") ∧
    ((updateUserFields ⟨1, "admin", "a@x.c", hashPassword "old", true, 0⟩
        ⟨none, none, none, none⟩).password = hashPassword "old") ∧
    ((updateUserFields ⟨1, "admin", "a@x.c", hashPassword "old", true, 0⟩
        ⟨none, none, some "newpass", none⟩).password = hashPassword "newpass") ∧
    ((updateProductFields
        ⟨1, "W", "w", some "M1", some "d", none, none, none, some 2, 9, 9⟩
        ⟨none, none, none, none, none, none, none⟩ 12).model_number =
      some "M1") ∧
    ((updateProductFields
        ⟨1, "W", "w", some "M1", some "d", none, none, none, some 2, 9, 9⟩
        ⟨none, none, none, none, none, none, none⟩ 12).updated_at = 12) := by
  have h1 := update_preserves_omitted
    ⟨1, "admin", "a@x.c", hashPassword "old", true, 0⟩ ⟨none, none, none, none⟩
    ⟨1, "W", "w", some "M1", some "d", none, none, none, some 2, 9, 9⟩
    ⟨none, none, none, none, none, none, none⟩ 12
  have h2 := update_preserves_omitted
    ⟨1, "admin", "a@x.c", hashPassword "old", true, 0⟩
    ⟨none, none, some "newpass", none⟩
    ⟨1, "W", "w", some "M1", some "d", none, none, none, some 2, 9, 9⟩
    ⟨none, none, none, none, none, none, none⟩ 12
  exact ⟨h1.1 rfl, h1.2.2.2.1 rfl,
    h2.2.2.2.2.1 "newpass" rfl (by decide), h1.2.2.2.2.2.2.2.1 rfl,
    h1.2.2.2.2.2.2.2.2.2.2.2.2.2.2⟩

/-! ### Contact submission (src/src/routes/contactRoutes.js POST /api/contact) -/

/-- Response of the public contact submission. -/
inductive ContactSubmitResp where
  | badRequest (errors : List String)
  | created (message : String)
deriving Repr, DecidableEq

/-- Auto-increment key for a new contact message row. -/
def nextMessageId (msgs : List ContactMessage) : Nat :=
  msgs.foldr (fun m acc => max m.id acc) 0 + 1

/-- POST /api/contact: validate the four required fields; persist a new row
(the model's columns are name, email, phone, message and the read flag,
which takes its default unread value on create); answer 201 with a fixed
acknowledgment that carries none of the submitted content.  `phone` is
`req.body.phone || null`. -/
def contactSubmitHandler (msgs : List ContactMessage) (clock : Nat)
    (name email phone subject msgBody : String) :
    ContactSubmitResp × List ContactMessage :=
  if name.isEmpty || !isEmailLike email || subject.isEmpty || msgBody.isEmpty then
    (.badRequest
      ((if name.isEmpty then ["Name is required"] else []) ++
       (if !isEmailLike email then ["Please include a valid email"] else []) ++
       (if subject.isEmpty then ["Subject is required"] else []) ++
       (if msgBody.isEmpty then ["Message is required"] else [])),
     msgs)
  else
    (.created "Your message has been sent successfully. We will get back to you soon.",
     msgs ++ [⟨nextMessageId msgs, name, email,
       (if phone.isEmpty then none else some phone), msgBody, clock, false⟩])

/-- C9: a valid submission persists exactly one new record whose read flag
starts unread, and the 201 response is the fixed acknowledgment — identical
across any two valid submissions, so no submitted content is echoed back. -/
theorem contact_submit_contract (msgs : List ContactMessage) (clock : Nat)
    (name email phone subject msgBody : String)
    (hn : ¬name.isEmpty) (he : isEmailLike email = true)
    (hs : ¬subject.isEmpty) (hm : ¬msgBody.isEmpty) :
    ((contactSubmitHandler msgs clock name email phone subject msgBody).2 =
      msgs ++ [⟨nextMessageId msgs, name, email,
        (if phone.isEmpty then none else some phone), msgBody, clock, false⟩]) ∧
    (∀ m ∈ (contactSubmitHandler msgs clock name email phone subject msgBody).2,
      m ∉ msgs → m.is_read = false) ∧
    ((contactSubmitHandler msgs clock name email phone subject msgBody).1 =
      .created "Your message has been sent successfully. We will get back to you soon.") ∧
    (∀ (msgs2 : List ContactMessage) (clock2 : Nat)
        (name2 email2 phone2 subject2 msgBody2 : String),
      ¬name2.isEmpty → isEmailLike email2 = true →
      ¬subject2.isEmpty → ¬msgBody2.isEmpty →
      (contactSubmitHandler msgs clock name email phone subject msgBody).1 =
        (contactSubmitHandler msgs2 clock2 name2 email2 phone2 subject2
          msgBody2).1) := by
  simp only [Bool.not_eq_true] at hn hs hm
  refine ⟨?_, ?_, ?_, ?_⟩
  · simp [contactSubmitHandler, hn, he, hs, hm]
  · intro m hmem hnot
    simp only [contactSubmitHandler, hn, he, hs, hm] at hmem
    simp only [Bool.false_eq_true, if_false, Bool.not_true, Bool.or_false,
      Bool.false_or, List.mem_append, List.mem_singleton] at hmem
    rcases hmem with h | h
    · exact absurd h hnot
    · rw [h]
  · simp [contactSubmitHandler, hn, he, hs, hm]
  · intro msgs2 clock2 name2 email2 phone2 subject2 msgBody2 hn2 he2 hs2 hm2
    simp only [Bool.not_eq_true] at hn2 hs2 hm2
    simp [contactSubmitHandler, hn, he, hs, hm, hn2, he2, hs2, hm2]

/-- Witness for C9: a concrete valid submission. -/
theorem contact_submit_contract_witness :
    ((contactSubmitHandler [] 7 "Ada" "ada@mail.com" "" "Hi" "Hello there").2 =
      [⟨1, "Ada", "ada@mail.com", none, "Hello there", 7, false⟩]) ∧
    ((contactSubmitHandler [] 7 "Ada" "ada@mail.com" "" "Hi" "Hello there").1 =
      (contactSubmitHandler [] 99 "Bob" "bob@mail.com" "123" "Yo" "Other text").1) := by
  have h := contact_submit_contract [] 7 "Ada" "ada@mail.com" "" "Hi" "Hello there"
    (by decide) (by decide) (by decide) (by decide)
  refine ⟨?_, ?_⟩
  · have := h.1
    simpa using this
  · exact h.2.2.2 [] 99 "Bob" "bob@mail.com" "123" "Yo" "Other text"
      (by decide) (by decide) (by decide) (by decide)

/-! ### User endpoint serialization (src/src/routes/userRoutes.js, GET /me)
and its password-blindness -/

/-- ORDER BY createdAt DESC comparator on user rows. -/
def userCreatedDesc (a b : User) : Bool := decide (b.createdAt ≤ a.createdAt)

/-- GET /api/users: all rows, newest first, serialized without password. -/
def listUsersHandler (users : List User) : Nat × List PublicUser :=
  (200, (sortListBy userCreatedDesc users).map toPublicUser)

/-- Response of GET /api/users/:id. -/
inductive GetUserResp where
  | notFound
  | ok (user : PublicUser)
deriving Repr, DecidableEq

/-- GET /api/users/:id: 404 if unknown, otherwise the row without
password. -/
def getUserHandler (users : List User) (id : Nat) : GetUserResp :=
  match users.find? (fun u => u.id == id) with
  | none => .notFound
  | some u => .ok (toPublicUser u)

/-- Response of POST /api/users. -/
inductive CreateUserResp where
  | badRequest (errors : List String)
  | conflict (message : String)
  | created (user : PublicUser)
deriving Repr, DecidableEq

/-- Auto-increment key for a new user row. -/
def nextUserId (users : List User) : Nat :=
  users.foldr (fun u acc => max u.id acc) 0 + 1

/-- POST /api/users: validate, reject duplicate username/email, create the
row with the hashed password (model hook) and answer 201 with the user
without the password field. -/
def createUserHandler (users : List User) (clock : Nat)
    (username email password : String) (is_admin : Option Bool) :
    CreateUserResp × List User :=
  if username.isEmpty || !isEmailLike email || password.length < 6 ||
      is_admin == none then
    (.badRequest
      ((if username.isEmpty then ["Username is required"] else []) ++
       (if !isEmailLike email then ["Please include a valid email"] else []) ++
       (if password.length < 6 then
          ["Password must be at least 6 characters long"] else []) ++
       (if is_admin == none then ["is_admin must be a boolean"] else [])),
     users)
  else if users.any (fun u => u.username == username) then
    (.conflict "Username already exists", users)
  else if users.any (fun u => u.email == email) then
    (.conflict "Email already exists", users)
  else
    (.created (toPublicUser
      ⟨nextUserId users, username, email, hashPassword password,
        is_admin.getD false, clock⟩),
     users ++ [⟨nextUserId users, username, email, hashPassword password,
        is_admin.getD false, clock⟩])

/-- Response of PUT /api/users/:id. -/
inductive UpdateUserResp where
  | notFound
  | conflict (message : String)
  | ok (user : PublicUser)
deriving Repr, DecidableEq

/-- PUT /api/users/:id: 404 if unknown; reject a changed username/email that
another row already holds; otherwise apply the partial update and answer
with the updated row without the password field. -/
def updateUserHandler (users : List User) (id : Nat) (b : UserUpdateBody) :
    UpdateUserResp × List User :=
  match users.find? (fun u => u.id == id) with
  | none => (.notFound, users)
  | some user =>
    if (match b.username with
        | some s => (!s.isEmpty && s != user.username) &&
            users.any (fun v => v.username == s)
        | none => false) then
      (.conflict "Username already exists", users)
    else if (match b.email with
        | some s => (!s.isEmpty && s != user.email) &&
            users.any (fun v => v.email == s)
        | none => false) then
      (.conflict "Email already exists", users)
    else
      (.ok (toPublicUser (updateUserFields user b)),
       users.map (fun v => if v.id == user.id then updateUserFields v b else v))

/-- Two user rows that agree on everything except possibly the stored
password hash. -/
def eqExceptPassword (u v : User) : Prop :=
  u.id = v.id ∧ u.username = v.username ∧ u.email = v.email ∧
  u.is_admin = v.is_admin ∧ u.createdAt = v.createdAt

theorem toPublicUser_eq_of_rel {a b : User} (h : eqExceptPassword a b) :
    toPublicUser a = toPublicUser b := by
  obtain ⟨h1, h2, h3, h4, h5⟩ := h
  simp [toPublicUser, h1, h2, h3, h4, h5]

theorem insertSorted_rel {α : Type} {R : α → α → Prop} {le : α → α → Bool}
    (hle : ∀ a b a2 b2, R a a2 → R b b2 → le a b = le a2 b2)
    {a a2 : α} (ha : R a a2) :
    ∀ {l1 l2 : List α}, List.Forall₂ R l1 l2 →
      List.Forall₂ R (insertSorted le a l1) (insertSorted le a2 l2) := by
  intro l1 l2 h
  induction h with
  | nil => exact .cons ha .nil
  | @cons b b2 t1 t2 hb ht ih =>
    simp only [insertSorted]
    rw [hle a b a2 b2 ha hb]
    by_cases hc : le a2 b2 = true
    · rw [if_pos hc, if_pos hc]
      exact .cons ha (.cons hb ht)
    · rw [if_neg hc, if_neg hc]
      exact .cons hb ih

theorem sortListBy_rel {α : Type} {R : α → α → Prop} {le : α → α → Bool}
    (hle : ∀ a b a2 b2, R a a2 → R b b2 → le a b = le a2 b2) :
    ∀ {l1 l2 : List α}, List.Forall₂ R l1 l2 →
      List.Forall₂ R (sortListBy le l1) (sortListBy le l2) := by
  intro l1 l2 h
  induction h with
  | nil => exact .nil
  | cons hb ht ih => exact insertSorted_rel hle hb ih

theorem map_eq_of_rel {α β : Type} {R : α → α → Prop} {f : α → β}
    (hf : ∀ a b, R a b → f a = f b) :
    ∀ {l1 l2 : List α}, List.Forall₂ R l1 l2 → l1.map f = l2.map f := by
  intro l1 l2 h
  induction h with
  | nil => rfl
  | @cons a b t1 t2 hb ht ih =>
    simp only [List.map_cons]
    rw [hf a b hb, ih]

theorem any_eq_of_rel {α : Type} {R : α → α → Prop} {p q : α → Bool}
    (hpq : ∀ a b, R a b → p a = q b) :
    ∀ {l1 l2 : List α}, List.Forall₂ R l1 l2 → l1.any p = l2.any q := by
  intro l1 l2 h
  induction h with
  | nil => rfl
  | @cons a b t1 t2 hb ht ih =>
    simp only [List.any_cons]
    rw [hpq a b hb, ih]

theorem find?_rel {α : Type} {R : α → α → Prop} {p q : α → Bool}
    (hpq : ∀ a b, R a b → p a = q b) :
    ∀ {l1 l2 : List α}, List.Forall₂ R l1 l2 →
      (l1.find? p = none ∧ l2.find? q = none) ∨
      (∃ a b, R a b ∧ l1.find? p = some a ∧ l2.find? q = some b) := by
  intro l1 l2 h
  induction h with
  | nil => exact Or.inl ⟨rfl, rfl⟩
  | @cons a b t1 t2 hb ht ih =>
    by_cases hc : p a = true
    · refine Or.inr ⟨a, b, hb, ?_, ?_⟩
      · rw [List.find?_cons_of_pos _ hc]
      · rw [List.find?_cons_of_pos _ (by rw [← hpq a b hb]; exact hc)]
    · have hqb : ¬q b = true := by rw [← hpq a b hb]; exact hc
      rw [List.find?_cons_of_neg _ hc, List.find?_cons_of_neg _ hqb]
      exact ih

theorem foldr_maxid_rel :
    ∀ {l1 l2 : List User}, List.Forall₂ eqExceptPassword l1 l2 →
      l1.foldr (fun u acc => max u.id acc) 0 =
        l2.foldr (fun u acc => max u.id acc) 0 := by
  intro l1 l2 h
  induction h with
  | nil => rfl
  | @cons a b t1 t2 hb ht ih =>
    simp only [List.foldr_cons]
    rw [hb.1, ih]

theorem toPublic_update_eq {a b2 : User} (hab : eqExceptPassword a b2)
    (bu : UserUpdateBody) :
    toPublicUser (updateUserFields a bu) = toPublicUser (updateUserFields b2 bu) := by
  obtain ⟨h1, h2, h3, h4, h5⟩ := hab
  simp [toPublicUser, updateUserFields, h1, h2, h3, h4, h5]

/-- C10: every user-serializing endpoint (list, get, create, update, me) is
blind to stored password hashes: two user tables that agree on everything
except password hashes produce identical response bodies, and those bodies
carry only password-free `PublicUser` values. -/
theorem user_routes_password_blind (l1 l2 : List User)
    (h : List.Forall₂ eqExceptPassword l1 l2)
    (id clock : Nat) (username email password : String) (adm : Option Bool)
    (b : UserUpdateBody) (c : Claims) :
    listUsersHandler l1 = listUsersHandler l2 ∧
    getUserHandler l1 id = getUserHandler l2 id ∧
    (createUserHandler l1 clock username email password adm).1 =
      (createUserHandler l2 clock username email password adm).1 ∧
    (updateUserHandler l1 id b).1 = (updateUserHandler l2 id b).1 ∧
    meHandler l1 (some c) = meHandler l2 (some c) ∧
    meHandler l1 none = meHandler l2 none := by
  have hle : ∀ a b a2 b2 : User, eqExceptPassword a a2 → eqExceptPassword b b2 →
      userCreatedDesc a b = userCreatedDesc a2 b2 := by
    intro a b a2 b2 ha hb
    simp [userCreatedDesc, ha.2.2.2.2, hb.2.2.2.2]
  have hid : ∀ a b2 : User, eqExceptPassword a b2 → (a.id == id) = (b2.id == id) :=
    fun a b2 hab => by rw [hab.1]
  have hcid : ∀ a b2 : User, eqExceptPassword a b2 → (a.id == c.id) = (b2.id == c.id) :=
    fun a b2 hab => by rw [hab.1]
  refine ⟨?_, ?_, ?_, ?_, ?_, rfl⟩
  · simp only [listUsersHandler]
    rw [map_eq_of_rel (fun a b2 hab => toPublicUser_eq_of_rel hab)
      (sortListBy_rel hle h)]
  · rcases find?_rel hid h with ⟨hn1, hn2⟩ | ⟨a, b2, hab, hf1, hf2⟩
    · simp [getUserHandler, hn1, hn2]
    · simp [getUserHandler, hf1, hf2, toPublicUser_eq_of_rel hab]
  · have ha1 : l1.any (fun u => u.username == username) =
        l2.any (fun u => u.username == username) :=
      any_eq_of_rel (fun x y hxy => by rw [hxy.2.1]) h
    have ha2 : l1.any (fun u => u.email == email) =
        l2.any (fun u => u.email == email) :=
      any_eq_of_rel (fun x y hxy => by rw [hxy.2.2.1]) h
    have hnid : nextUserId l1 = nextUserId l2 := by
      simp only [nextUserId]
      rw [foldr_maxid_rel h]
    simp only [createUserHandler, ha1, ha2, hnid]
    split
    · rfl
    · split
      · rfl
      · split
        · rfl
        · rfl
  · rcases find?_rel hid h with ⟨hn1, hn2⟩ | ⟨a, b2, hab, hf1, hf2⟩
    · simp [updateUserHandler, hn1, hn2]
    · simp only [updateUserHandler, hf1, hf2]
      have hu : (match b.username with
          | some s => (!s.isEmpty && s != a.username) &&
              l1.any (fun v => v.username == s)
          | none => false) =
          (match b.username with
          | some s => (!s.isEmpty && s != b2.username) &&
              l2.any (fun v => v.username == s)
          | none => false) := by
        cases hbu : b.username with
        | none => rfl
        | some s =>
          dsimp only
          rw [hab.2.1, any_eq_of_rel (fun x y hxy => by rw [hxy.2.1]) h]
      have he : (match b.email with
          | some s => (!s.isEmpty && s != a.email) &&
              l1.any (fun v => v.email == s)
          | none => false) =
          (match b.email with
          | some s => (!s.isEmpty && s != b2.email) &&
              l2.any (fun v => v.email == s)
          | none => false) := by
        cases hbe : b.email with
        | none => rfl
        | some s =>
          dsimp only
          rw [hab.2.2.1, any_eq_of_rel (fun x y hxy => by rw [hxy.2.2.1]) h]
      rw [hu, he]
      split
      · rfl
      · split
        · rfl
        · dsimp only
          rw [toPublic_update_eq hab b]
  · rcases find?_rel hcid h with ⟨hn1, hn2⟩ | ⟨a, b2, hab, hf1, hf2⟩
    · simp [meHandler, hn1, hn2]
    · simp [meHandler, hf1, hf2, toPublicUser_eq_of_rel hab]

/-- Witness for C10: two one-row tables differing only in the stored hash
serialize identically on every user endpoint. -/
theorem user_routes_password_blind_witness :
    listUsersHandler [⟨1, "admin", "a@x.c", "hashA", true, 0⟩] =
      listUsersHandler [⟨1, "admin", "a@x.c", "hashB", true, 0⟩] ∧
    getUserHandler [⟨1, "admin", "a@x.c", "hashA", true, 0⟩] 1 =
      getUserHandler [⟨1, "admin", "a@x.c", "hashB", true, 0⟩] 1 := by
  have h := user_routes_password_blind
    [⟨1, "admin", "a@x.c", "hashA", true, 0⟩]
    [⟨1, "admin", "a@x.c", "hashB", true, 0⟩]
    (List.Forall₂.cons ⟨rfl, rfl, rfl, rfl, rfl⟩ List.Forall₂.nil)
    1 5 "bob" "bob@x.c" "secret123" (some false) ⟨none, none, none, none⟩
    ⟨1, "admin", "a@x.c", true⟩
  exact ⟨h.1, h.2.1⟩
